import Mathlib

/-!
# Verification of the resume-analyser matching/scoring core

This file gives a shallow embedding, in Lean 4, of the algorithmic core of the
`resume-analyser` repository (skill extraction, skill-gap analysis, text
similarity, fit scoring, course recommendation, and job/company ranking), and
proves or refutes the specification claims about it.

Conventions of the embedding:
* Python floats are modelled as `ℚ`; Python `int(x)` (truncation toward zero)
  is `pyInt`; `round(x, 1)` is `pyRound1` (exact half-to-even on `ℚ`).
* Python strings are Lean `String`s; character-level work happens on `.data`.
* Python `re` usage is modelled by a small matcher (`RAtom`, `reSearch`) that
  covers exactly the constructs occurring in the source's patterns: literals,
  `.`, `\b`, `\s+`, `\s*`, `\d+`, `X?`, `.*`, and the possessive `c++` that
  arises because the source interpolates the skill name `C++` into patterns
  without `re.escape` (under Python ≥ 3.11 `c++` is a possessive quantifier;
  under older Pythons it raises `re.error` — we model the modern behaviour).
* Python `set`s used only for membership are modelled as lists (membership
  agrees); where a set's iteration order leaks into an output list the Python
  order is unspecified, and the embedding fixes first-occurrence order.  No
  verified property depends on such an order.
* Functions reading module-level catalogs (`REAL_COMPANY_JOBS`,
  `COMPANY_JOBS`) take the catalog as an explicit parameter, matching the
  spec's `rank(candidate_skills, catalog)` contract.
-/

/-! ## Python string primitives -/

/-- Python `\w` (ASCII range, as all catalog data is ASCII): letters, digits, underscore. -/
def isWordChar (c : Char) : Bool := c.isAlphanum || c == '_'

/-- `str.lower()` on the character list of a string. -/
def lowerChars (cs : List Char) : List Char := cs.map Char.toLower

/-- `str.lower()` producing a `String`. -/
def pyLower (s : String) : String := ⟨lowerChars s.data⟩

/-- `str.strip()`: drop leading and trailing whitespace. -/
def pyStrip (s : String) : String :=
  ⟨((s.data.dropWhile Char.isWhitespace).reverse.dropWhile Char.isWhitespace).reverse⟩

/-- `str.split()` with no argument: split on runs of whitespace, no empty parts. -/
def pySplitWs (cs : List Char) : List (List Char) :=
  ((cs.splitOnP Char.isWhitespace).filter (fun w => !w.isEmpty))

/-- Whitespace-split of a string into strings. -/
def pySplit (s : String) : List String := (pySplitWs s.data).map (fun w => ⟨w⟩)

/-- `sub in text` for Python strings: contiguous-substring containment. -/
def containsSub (sub text : List Char) : Bool :=
  (List.range (text.length + 1)).any (fun i => (text.drop i).take sub.length == sub)

/-- `str.title()`: uppercase every letter that follows a non-letter, lowercase
the other letters (ASCII behaviour of Python's `str.title`). -/
def pyTitleAux : List Char → Bool → List Char
  | [], _ => []
  | c :: cs, prevAlpha =>
      if c.isAlpha then
        (if prevAlpha then c.toLower else c.toUpper) :: pyTitleAux cs true
      else
        c :: pyTitleAux cs false

def pyTitle (s : String) : String := ⟨pyTitleAux s.data false⟩

/-- Python `int()` applied to a rational: truncation toward zero. -/
def pyInt (q : ℚ) : ℤ := if 0 ≤ q then ⌊q⌋ else -⌊-q⌋

/-- Python `round(x, 1)`: round to one decimal place, halves to even. -/
def pyRound1 (q : ℚ) : ℚ :=
  let x : ℚ := q * 10
  let n : ℤ := ⌊x⌋
  let f : ℚ := x - n
  (if f < 1/2 then (n : ℚ) else if 1/2 < f then (n + 1 : ℤ)
   else if n % 2 = 0 then (n : ℚ) else (n + 1 : ℤ)) / 10

/-! ## A matcher for the regular expressions used by the source

Each `RAtom` is one atom of a pattern; `reMatch` tries to match a list of
atoms at the head of the text, `reSearch` at any position (Python
`re.search`).  `prev` carries the character before the current position, for
`\b`.  Greedy constructs backtrack; `possPlus` is the possessive `c++`. -/

inductive RAtom where
  /-- a literal character -/
  | lit (c : Char)
  /-- `.` and other single-character classes -/
  | cls (p : Char → Bool)
  /-- `X*` over a character class, greedy with backtracking (`\s*`, `.*`) -/
  | star (p : Char → Bool)
  /-- `X+` over a character class, greedy with backtracking (`\s+`, `\d+`) -/
  | plus (p : Char → Bool)
  /-- possessive `X++` (maximal munch, no backtracking) -/
  | possPlus (p : Char → Bool)
  /-- `c?`: an optional literal character -/
  | opt (c : Char)
  /-- `\b`: word boundary -/
  | bound

/-- `\b` holds between `prev` and `next` iff exactly one side is a word char. -/
def boundaryOk (prev next : Option Char) : Bool :=
  (match prev with | some c => isWordChar c | none => false) !=
  (match next with | some c => isWordChar c | none => false)

/-- One step of matching a pattern at the head of the text.  `fuel`
decreases on every recursive call; it is a pure termination device that
makes the function structurally recursive (and hence kernel-computable).
Along any call path either the text or the atom list shrinks (the atom list
never grows beyond its initial length), so the path depth is below
`(t.length + 1) * (as.length + 2)`, and `reSearchText` supplies at least
that much fuel: the `fuel = 0` branch is unreachable. -/
def reMatch : ℕ → List RAtom → List Char → Option Char → Bool
  | 0, _, _, _ => false
  | fuel + 1, as0, t, prev =>
    match as0, t with
    | [], _ => true
    | .bound :: as, t => boundaryOk prev t.head? && reMatch fuel as t prev
    | .lit _ :: _, [] => false
    | .lit c :: as, x :: t' => x == c && reMatch fuel as t' (some x)
    | .cls _ :: _, [] => false
    | .cls p :: as, x :: t' => p x && reMatch fuel as t' (some x)
    | .opt c :: as, t =>
        (match t with
         | x :: t' => x == c && reMatch fuel as t' (some x)
         | [] => false) || reMatch fuel as t prev
    | .star p :: as, t =>
        (match t with
         | x :: t' => p x && reMatch fuel (.star p :: as) t' (some x)
         | [] => false) || reMatch fuel as t prev
    | .plus p :: as, t =>
        match t with
        | x :: t' => p x && reMatch fuel (.star p :: as) t' (some x)
        | [] => false
    | .possPlus p :: as, t =>
        -- possessive: consume the maximal run, never backtrack
        match t.takeWhile p with
        | [] => false
        | c :: cs => reMatch fuel as (t.drop (cs.length + 1)) (some ((c :: cs).getLastD c))

/-- Ample fuel for `reMatch` (see its docstring). -/
def reFuel (as : List RAtom) (t : List Char) : ℕ := (t.length + 1) * (as.length + 2) + 1

/-- Python `re.search`: try to match at every position of the text. -/
def reSearch (fuel : ℕ) (as : List RAtom) : List Char → Option Char → Bool
  | [], prev => reMatch fuel as [] prev
  | x :: t', prev => reMatch fuel as (x :: t') prev || reSearch fuel as t' (some x)

/-- Search a whole text (no character precedes the first position). -/
def reSearchText (as : List RAtom) (t : List Char) : Bool :=
  reSearch (reFuel as t) as t none

/-- Compile one character of an interpolated (unescaped) skill name, pushing
onto a reversed accumulator.  `.` becomes a wildcard; a `+` turns the
preceding atom into a repetition, and a second `+` makes it possessive —
exactly how Python ≥ 3.11 reads the unescaped `c++`. -/
def compilePush (acc : List RAtom) (c : Char) : List RAtom :=
  if c == '.' then .cls (fun x => x != '\n') :: acc
  else if c == '+' then
    match acc with
    | .lit d :: acc' => .plus (fun x => x == d) :: acc'
    | .plus p :: acc' => .possPlus p :: acc'
    | .cls p :: acc' => .plus p :: acc'
    | _ => acc
  else .lit c :: acc

/-- Compile an interpolated skill name (no whitespace) into pattern atoms. -/
def compileChars (cs : List Char) : List RAtom := (cs.foldl compilePush []).reverse

/-- Pattern atoms for a literal fragment of a hand-written pattern. -/
def lits (s : String) : List RAtom := s.data.map RAtom.lit

/-- `\s+` -/
def wsPlus : RAtom := .plus Char.isWhitespace

/-- `\s*` -/
def wsStar : RAtom := .star Char.isWhitespace

/-- `\d+` -/
def digPlus : RAtom := .plus Char.isDigit

/-- `.*` -/
def anyStar : RAtom := .star (fun c => c != '\n')

/-! ## `core/skill_analyzer.py` — SkillAnalyzer -/

namespace SkillAnalyzer

/-- `SkillAnalyzer.skill_categories`: main category → sub-category → skills
(dict insertion order preserved). -/
def skillCategories : List (String × List (String × List String)) :=
  [("programming_languages",
     [("primary", ["Python", "Java", "JavaScript", "C++", "C#", "Go", "Rust", "Swift", "Kotlin"]),
      ("web", ["HTML", "CSS", "TypeScript", "PHP", "Ruby"]),
      ("data", ["R", "SQL", "Scala", "Julia", "MATLAB"]),
      ("mobile", ["Swift", "Kotlin", "Dart", "Objective-C"]),
      ("systems", ["C", "C++", "Rust", "Assembly", "Go"])]),
   ("frameworks_libraries",
     [("web_frontend", ["React", "Angular", "Vue.js", "Svelte", "Next.js", "Nuxt.js"]),
      ("web_backend", ["Django", "Flask", "Express.js", "Spring", "Laravel", "Ruby on Rails"]),
      ("mobile", ["React Native", "Flutter", "Xamarin", "Ionic"]),
      ("data_science", ["Pandas", "NumPy", "Scikit-learn", "TensorFlow", "PyTorch", "Keras"]),
      ("testing", ["Jest", "Pytest", "JUnit", "Selenium", "Cypress"])]),
   ("databases",
     [("relational", ["MySQL", "PostgreSQL", "SQLite", "Oracle", "SQL Server"]),
      ("nosql", ["MongoDB", "Redis", "Cassandra", "DynamoDB", "Neo4j"]),
      ("big_data", ["Hadoop", "Spark", "Kafka", "Elasticsearch"])]),
   ("cloud_devops",
     [("cloud_platforms", ["AWS", "Azure", "Google Cloud", "IBM Cloud"]),
      ("containers", ["Docker", "Kubernetes", "OpenShift"]),
      ("ci_cd", ["Jenkins", "GitLab CI", "GitHub Actions", "Travis CI"]),
      ("infrastructure", ["Terraform", "Ansible", "Chef", "Puppet"]),
      ("monitoring", ["Prometheus", "Grafana", "ELK Stack", "New Relic"])]),
   ("data_ai_ml",
     [("machine_learning", ["Machine Learning", "Deep Learning", "Neural Networks", "Computer Vision", "NLP"]),
      ("data_processing", ["ETL", "Data Pipeline", "Apache Airflow", "Apache Spark"]),
      ("analytics", ["Data Analysis", "Statistical Analysis", "A/B Testing", "Business Intelligence"]),
      ("tools", ["Jupyter", "Tableau", "Power BI", "Apache Superset"])]),
   ("soft_skills",
     [("leadership", ["Team Leadership", "Project Management", "Mentoring", "Strategic Planning"]),
      ("communication", ["Technical Writing", "Presentation Skills", "Cross-functional Collaboration"]),
      ("problem_solving", ["Analytical Thinking", "Creative Problem Solving", "Debugging", "Troubleshooting"]),
      ("agile", ["Scrum", "Kanban", "Agile Methodology", "Sprint Planning"])]),
   ("tools_platforms",
     [("version_control", ["Git", "GitHub", "GitLab", "Bitbucket", "SVN"]),
      ("ides", ["VS Code", "IntelliJ", "Eclipse", "PyCharm", "Xcode"]),
      ("design", ["Figma", "Adobe XD", "Sketch", "Photoshop", "Illustrator"]),
      ("project_management", ["Jira", "Trello", "Asana", "Monday.com", "Notion"])])]

/-- `SkillAnalyzer.skill_synonyms`. -/
def skillSynonyms : List (String × List String) :=
  [("JavaScript", ["JS", "Javascript", "ECMAScript"]),
   ("TypeScript", ["TS", "Typescript"]),
   ("React", ["ReactJS", "React.js"]),
   ("Angular", ["AngularJS", "Angular.js"]),
   ("Vue.js", ["Vue", "VueJS"]),
   ("Node.js", ["NodeJS", "Node"]),
   ("Express.js", ["Express", "ExpressJS"]),
   ("MongoDB", ["Mongo", "Mongo DB"]),
   ("PostgreSQL", ["Postgres", "PostGres"]),
   ("Machine Learning", ["ML", "Machine-Learning"]),
   ("Deep Learning", ["DL", "Deep-Learning"]),
   ("Natural Language Processing", ["NLP", "Natural Language Processing"]),
   ("Computer Vision", ["CV", "Image Processing"]),
   ("Amazon Web Services", ["AWS"]),
   ("Google Cloud Platform", ["GCP", "Google Cloud"]),
   ("Microsoft Azure", ["Azure"])]

/-- `self.skill_synonyms.get(skill, [])`. -/
def synonymsOf (skill : String) : List String := (skillSynonyms.lookup skill).getD []

/-- `SkillAnalyzer.skill_importance`. -/
def skillImportance : List (String × ℚ) :=
  [("Python", 95/100), ("JavaScript", 90/100), ("React", 85/100), ("AWS", 90/100),
   ("Docker", 80/100), ("Kubernetes", 75/100), ("Machine Learning", 85/100),
   ("SQL", 90/100), ("Git", 95/100), ("Node.js", 80/100), ("Angular", 75/100),
   ("Java", 85/100), ("C++", 70/100), ("MongoDB", 70/100), ("PostgreSQL", 75/100)]

/-- `r'\b' + skill_lower + r'\b'` for a single-word skill (interpolated raw). -/
def singleWordPat (sl : List Char) : List RAtom := .bound :: compileChars sl ++ [.bound]

/-- `r'\b' + r'\s+'.join(skill_words) + r'\b'` for a multi-word skill. -/
def multiWordPat (ws : List (List Char)) : List RAtom :=
  .bound :: List.intercalate [wsPlus] (ws.map compileChars) ++ [.bound]

/-- The six `context_patterns` of `_calculate_skill_confidence`, in dict and
list order (`experience`, `proficient`, `years`), with the skill interpolated
raw. -/
def contextPats (sl : List Char) : List (List RAtom) :=
  [lits "experience" ++ [wsPlus] ++ lits "with" ++ [wsPlus] ++ compileChars sl,
   lits "worked" ++ [wsPlus] ++ lits "with" ++ [wsPlus] ++ compileChars sl,
   lits "proficient" ++ [wsPlus] ++ lits "in" ++ [wsPlus] ++ compileChars sl,
   lits "expert" ++ [wsPlus] ++ lits "in" ++ [wsPlus] ++ compileChars sl,
   [digPlus, wsPlus] ++ lits "year" ++ [.opt 's', wsPlus] ++ lits "of" ++ [wsPlus] ++ compileChars sl,
   compileChars sl ++ [wsPlus] ++ lits "for" ++ [wsPlus, digPlus, wsPlus] ++ lits "year" ++ [.opt 's']]

/-- `SkillAnalyzer._calculate_skill_confidence(skill, text)`; `text` is the
already-lowercased input. -/
def calcSkillConfidence (skill : String) (text : List Char) : ℚ :=
  let sl := lowerChars skill.data
  -- exact (substring) match, highest confidence
  let c0 : ℚ := if containsSub sl text then 9/10 else 0
  -- synonyms, also by substring
  let c1 := (synonymsOf skill).foldl
      (fun c syn => if containsSub (lowerChars syn.data) text then max c (8/10) else c) c0
  -- word-boundary match
  let ws := pySplitWs sl
  let c2 :=
    if ws.length > 1 then
      if reSearchText (multiWordPat ws) text then max c1 (85/100) else c1
    else
      if reSearchText (singleWordPat sl) text then max c1 (7/10) else c1
  -- context-based adjustment: +0.1 (capped at 1) per matching pattern
  (contextPats sl).foldl
      (fun c pat => if reSearchText pat text then min 1 (c + 1/10) else c) c2

/-- The descending-by-confidence comparison of the per-category sort. -/
def confGE (a b : String × ℚ) : Prop := b.2 ≤ a.2

instance : DecidableRel confGE := fun _ _ => Rat.instDecidableLe _ _

/-- Descending stable sort by confidence, `found_skills[category].sort(key=..., reverse=True)`
(Python's stable `sort`, embedded as stable insertion sort). -/
def sortByConfDesc (l : List (String × ℚ)) : List (String × ℚ) :=
  l.insertionSort confGE

/-- `SkillAnalyzer.extract_skills_from_text(text)`: category → (skill, confidence)
pairs with confidence above the 0.3 detection threshold, confidence-sorted;
only categories with at least one hit appear (defaultdict), in catalog order. -/
def extractSkillsFromText (text : String) : List (String × List (String × ℚ)) :=
  let tl := lowerChars text.data
  (skillCategories.map (fun cat =>
      (cat.1, sortByConfDesc
        (cat.2.flatMap (fun sub =>
          sub.2.filterMap (fun s =>
            let c := calcSkillConfidence s tl
            if c > 3/10 then some (s, c) else none))))))
  |>.filter (fun cat => !cat.2.isEmpty)

/-- The four `importance_indicators` of `_calculate_skill_importance`, each
with its multiplier, in dict order; at most one multiplication per indicator
type (the Python loop `break`s after the first matching pattern). -/
def importanceIndicators (sl : List Char) : List (List (List RAtom) × ℚ) :=
  [([lits "require" ++ [.opt 'd', wsStar, .opt ':', wsStar, anyStar] ++ compileChars sl,
     lits "must" ++ [wsPlus] ++ lits "have" ++ [anyStar] ++ compileChars sl], 12/10),
   ([lits "preferre" ++ [.opt 'd', wsStar, .opt ':', wsStar, anyStar] ++ compileChars sl,
     lits "nice" ++ [wsPlus] ++ lits "to" ++ [wsPlus] ++ lits "have" ++ [anyStar] ++ compileChars sl], 9/10),
   ([lits "essential" ++ [anyStar] ++ compileChars sl,
     lits "critical" ++ [anyStar] ++ compileChars sl], 13/10),
   ([[digPlus, .opt '+', wsPlus] ++ lits "year" ++ [.opt 's', wsPlus, anyStar] ++ compileChars sl,
     compileChars sl ++ [anyStar, digPlus, .opt '+', wsPlus] ++ lits "year" ++ [.opt 's']], 11/10)]

/-- `SkillAnalyzer._calculate_skill_importance(skill, job_description)`;
`jobLower` is the lowercased job description. -/
def calcSkillImportance (skill : String) (jobLower : List Char) : ℚ :=
  let base : ℚ := (skillImportance.lookup skill).getD (1/2)
  min 1 ((importanceIndicators (lowerChars skill.data)).foldl
    (fun acc ind => if ind.1.any (fun p => reSearchText p jobLower) then acc * ind.2 else acc)
    base)

/-- `SkillAnalyzer.extract_job_requirements(job_description)`: the extracted
skills with confidence replaced by context-adjusted importance. -/
def extractJobRequirements (job : String) : List (String × List (String × ℚ)) :=
  let jl := lowerChars job.data
  (extractSkillsFromText job).map (fun cat =>
    (cat.1, cat.2.map (fun sk => (sk.1, calcSkillImportance sk.1 jl))))

/-- The `skill_relationships` table of `_find_alternative_skills`. -/
def skillRelationships : List (String × List String) :=
  [("react", ["angular", "vue.js", "javascript", "typescript"]),
   ("angular", ["react", "vue.js", "typescript", "javascript"]),
   ("vue.js", ["react", "angular", "javascript", "typescript"]),
   ("python", ["java", "javascript", "c++", "go"]),
   ("mysql", ["postgresql", "sqlite", "oracle", "sql server"]),
   ("mongodb", ["redis", "cassandra", "dynamodb"]),
   ("aws", ["azure", "google cloud", "docker", "kubernetes"]),
   ("docker", ["kubernetes", "aws", "azure", "containerization"]),
   ("machine learning", ["deep learning", "data science", "ai", "tensorflow", "pytorch"])]

/-- `SkillAnalyzer._find_alternative_skills(target_skill, resume_skills)`.
Python iterates a `set` here, whose order is unspecified; the embedding keeps
the (deduplicated) insertion order of the flattened resume skills. -/
def findAlternativeSkills (target : String) (resumeFlat : List String) : List String :=
  let related := (skillRelationships.lookup (pyLower target)).getD []
  resumeFlat.filter (fun s => related.contains s)

/-- `SkillMatch` (the dataclass). -/
structure SkillMatchR where
  skill : String
  category : String
  confidence : ℚ
  found_in_resume : Bool
  importance : ℚ
  alternatives : List String
  deriving Repr, DecidableEq

/-- `SkillGapAnalysis` (the dataclass); the free-text `recommendations` and
`skill_level_assessment` presentation fields are not modelled (no verified
property mentions them). -/
structure SkillGapAnalysisR where
  matched_skills : List SkillMatchR
  missing_skills : List SkillMatchR
  skill_categories : List (String × List String)
  overall_match_score : ℚ
  critical_gaps : List String
  deriving Repr, DecidableEq

/-- The lowercased flattened resume skill set (`resume_skills_flat`), a Python
`set` used for membership tests, plus the optional manually provided skills.
Modelled as a deduplicated list. -/
def resumeSkillsFlat (resume : String) (hint : Option (List String)) : List String :=
  (((extractSkillsFromText resume).flatMap (fun cat => cat.2.map (fun sk => pyLower sk.1)))
    ++ (hint.getD []).map pyLower).dedup

/-- `is_present`: the required skill, or one of its synonyms, occurs
(lowercased) in the flattened resume skill set. -/
def isPresentIn (flat : List String) (skill : String) : Bool :=
  flat.contains (pyLower skill) || (synonymsOf skill).any (fun syn => flat.contains (pyLower syn))

/-- All `(category, skill, importance)` triples of the job requirements, in
iteration order of the `analyze_skill_gaps` double loop. -/
def jobPairs (job : String) : List (String × String × ℚ) :=
  (extractJobRequirements job).flatMap (fun cat => cat.2.map (fun sk => (cat.1, sk.1, sk.2)))

/-- Build one `SkillMatch` of `analyze_skill_gaps`. -/
def mkSkillMatch (flat : List String) (p : String × String × ℚ) : SkillMatchR :=
  { skill := p.2.1, category := p.1, confidence := p.2.2,
    found_in_resume := isPresentIn flat p.2.1, importance := p.2.2,
    alternatives := findAlternativeSkills p.2.1 flat }

/-- `SkillAnalyzer.analyze_skill_gaps(resume_text, job_description, resume_skills)`.
The single Python loop that appends each required skill to either
`matched_skills` or `missing_skills` is rendered as two order-preserving
filters over the same iteration sequence. -/
def analyzeSkillGaps (resume job : String) (hint : Option (List String)) : SkillGapAnalysisR :=
  let flat := resumeSkillsFlat resume hint
  let pairs := jobPairs job
  let matched := (pairs.filter (fun p => isPresentIn flat p.2.1)).map (mkSkillMatch flat)
  let missing := (pairs.filter (fun p => !isPresentIn flat p.2.1)).map (mkSkillMatch flat)
  let totalImportance := ((matched ++ missing).map (·.importance)).sum
  let matchedImportance := (matched.map (·.importance)).sum
  { matched_skills := matched
    missing_skills := missing
    skill_categories :=
      [("matched", matched.map (·.skill)), ("missing", missing.map (·.skill))]
    overall_match_score := if totalImportance > 0 then matchedImportance / totalImportance else 0
    critical_gaps := (missing.filter (fun m => m.importance > 7/10)).map (·.skill) }

/-- The flattened list of skill names extracted from a text (used by the
spec's "flattened extracted skill set"). -/
def flatSkillNames (text : String) : List String :=
  (extractSkillsFromText text).flatMap (fun cat => cat.2.map (·.1))

end SkillAnalyzer

/-! ## `working_backend.py` -/

namespace WorkingBackend

/-- The skill keyword list of `extract_skills`. -/
def skillsList : List String :=
  ["python", "java", "javascript", "typescript", "react", "angular", "vue",
   "node.js", "express", "django", "flask", "spring", "sql", "mysql",
   "postgresql", "mongodb", "redis", "html", "css", "bootstrap", "tailwind",
   "aws", "azure", "gcp", "docker", "kubernetes", "jenkins", "git", "github",
   "machine learning", "data science", "tensorflow", "pytorch", "pandas",
   "numpy", "scikit-learn", "opencv", "nlp", "deep learning", "ai",
   "rest api", "graphql", "microservices", "agile", "scrum", "devops",
   "linux", "windows", "bash", "powershell", "ci/cd", "testing"]

/-- `extract_skills(text)`: keywords found by plain substring containment in
the lowercased text, title-cased; `list(set(found))` deduplicates in
unspecified Python order, modelled with `List.dedup`. -/
def extract_skills (text : String) : List String :=
  let tl := lowerChars text.data
  ((skillsList.filter (fun s => containsSub s.data tl)).map pyTitle).dedup

/-- The lexical-overlap fallback similarity inside `calculate_fit_score`
(taken when no embedding model is available): word-overlap count divided by
the number of distinct job-description words. -/
def fallbackSimilarity (resume_text job_desc : String) : ℚ :=
  let resume_words := (pySplit (pyLower resume_text)).toFinset
  let job_words := (pySplit (pyLower job_desc)).toFinset
  if 0 < job_words.card then
    min (((resume_words ∩ job_words).card : ℚ) / job_words.card) 1
  else 1/2

/-- `skill_ratio` inside `calculate_fit_score`. -/
def skillRatio (job_desc : String) (resume_skills : List String) : ℚ :=
  let job_skills := extract_skills job_desc
  let resume_skills_lower := resume_skills.map pyLower
  let matching := (job_skills.map pyLower).countP (fun s => resume_skills_lower.contains s)
  if job_skills.isEmpty then 1/2
  else (matching : ℚ) / max job_skills.length 1

/-- Result triple of `calculate_fit_score`. -/
structure FitResult where
  fit_score : ℤ
  shortlist : ℤ
  missing : List String
  deriving Repr, DecidableEq

/-- `calculate_fit_score(resume_text, job_desc, resume_skills)`.

`similarity` is the semantic-similarity value (the embedding model's cosine,
or `fallbackSimilarity resume_text job_desc`, or the 0.5 error default) and
`rand` is the value drawn from the random source for the shortlist jitter
(`randint(-8, 12)`); both are injected so the claims can quantify over them. -/
def calculate_fit_score (similarity : ℚ) (_resume_text job_desc : String)
    (resume_skills : List String) (rand : ℤ) : FitResult :=
  let job_skills := extract_skills job_desc
  let resume_skills_lower := resume_skills.map pyLower
  let skill_ratio := skillRatio job_desc resume_skills
  let fit_score := max 25 (min 95 (pyInt ((similarity * (6/10) + skill_ratio * (4/10)) * 100)))
  let shortlist := max 15 (min 88 (pyInt ((fit_score : ℚ) * (8/10) + rand)))
  let missing := (job_skills.filter (fun s => !resume_skills_lower.contains (pyLower s))).take 6
  { fit_score := fit_score, shortlist := shortlist, missing := missing }

/-- The static course table of `get_courses`. -/
structure Course where
  name : String
  link : String
  deriving Repr, DecidableEq

def coursesTable : List (String × Course) :=
  [("python", ⟨"Python Programming", "https://www.coursera.org/learn/python"⟩),
   ("javascript", ⟨"JavaScript Essentials", "https://www.udemy.com/course/javascript-essentials/"⟩),
   ("react", ⟨"React Complete Guide", "https://www.udemy.com/course/react-the-complete-guide/"⟩),
   ("machine learning", ⟨"ML Specialization", "https://www.coursera.org/specializations/machine-learning-introduction"⟩),
   ("aws", ⟨"AWS Cloud Practitioner", "https://www.udemy.com/course/aws-certified-cloud-practitioner/"⟩),
   ("docker", ⟨"Docker Mastery", "https://www.udemy.com/course/docker-mastery/"⟩),
   ("sql", ⟨"SQL for Data Science", "https://www.coursera.org/learn/sql-for-data-science"⟩)]

/-- The recommendation `get_courses` produces for one missing skill. -/
def courseFor (skill : String) : Course :=
  match coursesTable.lookup (pyLower skill) with
  | some c => c
  | none => ⟨"Learn " ++ skill,
             "https://www.coursera.org/search?query=" ++ skill.replace " " "+"⟩

/-- `get_courses(missing_skills)`: one course per skill, first four skills only. -/
def get_courses (missing_skills : List String) : List Course :=
  (missing_skills.take 4).map courseFor

end WorkingBackend

/-! ## `backend_main.py` -/

namespace BackendMain

/-- `re.findall(r'\w+', text)`: maximal runs of word characters. -/
def wordRuns (cs : List Char) : List (List Char) :=
  ((cs.splitOnP (fun c => !isWordChar c)).filter (fun w => !w.isEmpty))

/-- The set of word tokens of the lowercased text. -/
def wordTokens (text : String) : Finset String :=
  ((wordRuns (lowerChars text.data)).map (fun w => (⟨w⟩ : String))).toFinset

/-- `calculate_semantic_similarity(text1, text2)`: Jaccard similarity over
lowercase word tokens. -/
def calculate_semantic_similarity (text1 text2 : String) : ℚ :=
  let words1 := wordTokens text1
  let words2 := wordTokens text2
  if (words1 ∪ words2).card = 0 then 0
  else ((words1 ∩ words2).card : ℚ) / ((words1 ∪ words2).card : ℚ)

end BackendMain

/-! ## `backend_final.py` -/

namespace BackendFinal

/-- The `skill_keywords` list of `extract_skills_from_text`. -/
def skillKeywords : List String :=
  ["python", "java", "javascript", "typescript", "c++", "c#", "php", "ruby", "go", "rust", "swift", "kotlin",
   "scala", "r", "matlab", "sql", "html", "css", "bash", "powershell",
   "react", "angular", "vue", "node.js", "express", "django", "flask", "spring", "laravel", "rails",
   "tensorflow", "pytorch", "keras", "scikit-learn", "pandas", "numpy", "opencv",
   "mysql", "postgresql", "mongodb", "redis", "elasticsearch", "oracle", "sqlite", "cassandra",
   "aws", "azure", "gcp", "docker", "kubernetes", "jenkins", "git", "github", "gitlab", "ci/cd",
   "terraform", "ansible", "chef", "puppet",
   "machine learning", "deep learning", "data science", "data analysis", "big data", "hadoop", "spark",
   "tableau", "power bi", "excel", "statistics", "nlp", "computer vision",
   "rest api", "graphql", "microservices", "web services", "json", "xml", "ajax", "jquery",
   "android", "ios", "react native", "flutter", "xamarin",
   "agile", "scrum", "project management", "testing", "debugging", "linux", "windows", "macos",
   "networking", "security", "blockchain", "iot", "api development"]

/-- `extract_skills_from_text(text)`: substring keyword matching, title-cased,
`list(set(...))`-deduplicated (the Python set order is unspecified; the
embedding uses `List.dedup`). -/
def extract_skills_from_text (text : String) : List String :=
  let tl := lowerChars text.data
  ((skillKeywords.filter (fun s => containsSub s.data tl)).map pyTitle).dedup

/-- Result of `analyze_skill_match`. -/
structure SkillMatchResult where
  matching_skills : List String
  missing_skills : List String
  skill_match_ratio : ℚ
  deriving Repr, DecidableEq

/-- `analyze_skill_match(resume_skills, job_description)`.  Note the 0.5
default ratio when no skills are found in the job description. -/
def analyze_skill_match (resume_skills : List String) (job_description : String) :
    SkillMatchResult :=
  let job_skills := extract_skills_from_text job_description
  let resume_skills_lower := resume_skills.map pyLower
  let matching := job_skills.filter (fun s => resume_skills_lower.contains (pyLower s))
  let missing := job_skills.filter (fun s => !resume_skills_lower.contains (pyLower s))
  { matching_skills := matching
    missing_skills := missing
    skill_match_ratio :=
      if 0 < job_skills.length then (matching.length : ℚ) / job_skills.length
      else 1/2 }

/-- The `course_database` of `get_course_recommendations`. -/
structure Course where
  name : String
  link : String
  deriving Repr, DecidableEq

def course_database : List (String × Course) :=
  [("python", ⟨"Python for Everybody Specialization", "https://www.coursera.org/specializations/python"⟩),
   ("machine learning", ⟨"Machine Learning Course", "https://www.coursera.org/learn/machine-learning"⟩),
   ("tensorflow", ⟨"TensorFlow Developer Certificate", "https://www.coursera.org/professional-certificates/tensorflow-in-practice"⟩),
   ("aws", ⟨"AWS Cloud Practitioner", "https://www.udemy.com/course/aws-certified-cloud-practitioner-new/"⟩),
   ("react", ⟨"React - The Complete Guide", "https://www.udemy.com/course/react-the-complete-guide-incl-redux/"⟩),
   ("docker", ⟨"Docker Mastery", "https://www.udemy.com/course/docker-mastery/"⟩),
   ("kubernetes", ⟨"Kubernetes for Developers", "https://www.udemy.com/course/kubernetes-for-developers/"⟩),
   ("data science", ⟨"Data Science Specialization", "https://www.coursera.org/specializations/jhu-data-science"⟩),
   ("sql", ⟨"SQL for Data Science", "https://www.coursera.org/learn/sql-for-data-science"⟩),
   ("javascript", ⟨"JavaScript: The Complete Guide", "https://www.udemy.com/course/javascript-the-complete-guide-2020-beginner-advanced/"⟩)]

/-- The recommendation `get_course_recommendations` produces for one skill. -/
def recommendationFor (skill : String) : Course :=
  match course_database.lookup (pyLower skill) with
  | some c => c
  | none => ⟨"Learn " ++ skill,
             "https://www.coursera.org/search?query=" ++ skill.replace " " "%20"⟩

/-- `get_course_recommendations(missing_skills)`: one recommendation per
skill, first five skills only. -/
def get_course_recommendations (missing_skills : List String) : List Course :=
  (missing_skills.take 5).map recommendationFor

end BackendFinal

/-! ## `fixed_enhanced_backend.py` -/

namespace FixedEnhanced

/-- Result of `calculate_exact_match_percentage`. -/
structure MatchAnalysis where
  matched_skills : List String
  missing_skills : List String
  extra_skills : List String
  match_percentage : ℚ
  matched_count : ℕ
  total_required : ℕ
  extra_count : ℕ
  deriving Repr, DecidableEq

/-- `calculate_exact_match_percentage(resume_skills, job_skills)`:
case-insensitive (lowercased, stripped) exact matching.  The returned
`match_percentage` is rounded to one decimal (`round(match_percentage, 1)`
in the source) — the eligibility filter of `match_jobs_realtime` compares
this rounded value against the threshold. -/
def calculate_exact_match_percentage (resume_skills job_skills : List String) :
    MatchAnalysis :=
  if job_skills.isEmpty then
    { matched_skills := [], missing_skills := [], extra_skills := resume_skills,
      match_percentage := 0, matched_count := 0, total_required := 0,
      extra_count := resume_skills.length }
  else
    let resume_lower := resume_skills.map (fun s => pyStrip (pyLower s))
    let job_lower := job_skills.map (fun s => pyStrip (pyLower s))
    let matched := job_skills.filter (fun s => resume_lower.contains (pyStrip (pyLower s)))
    let missing := job_skills.filter (fun s => !resume_lower.contains (pyStrip (pyLower s)))
    let extra := resume_skills.filter (fun s => !job_lower.contains (pyStrip (pyLower s)))
    { matched_skills := matched, missing_skills := missing, extra_skills := extra,
      match_percentage :=
        pyRound1 (if 0 < job_skills.length then (matched.length : ℚ) / job_skills.length * 100
                  else 0),
      matched_count := matched.length, total_required := job_skills.length,
      extra_count := extra.length }

/-- One entry of the `REAL_COMPANY_JOBS` catalog.  `minimum_match_threshold`
is optional; `match_jobs_realtime` reads it with `job.get(..., 30)`. -/
structure JobPosting where
  company : String
  role_title : String
  required_skills : List String
  preferred_skills : List String
  salary_range : String
  location : String
  experience_level : String
  job_type : String
  minimum_match_threshold : Option ℚ
  deriving Repr, DecidableEq

/-- The `JobMatch` model as populated by `match_jobs_realtime`. -/
structure JobMatch where
  company : String
  role_title : String
  fit_score : ℚ
  skills_overlap : List String
  missing_skills : List String
  selection_probability : ℚ
  salary_range : String
  location : String
  experience_level : String
  skill_match_percentage : ℚ
  exact_matches : ℕ
  total_required : ℕ
  eligibility_reason : String
  deriving Repr, DecidableEq

/-- The required-skill match percentage used for the eligibility test: the
one-decimal-rounded value stored by `calculate_exact_match_percentage` (so a
posting whose exact percentage is 29.985% passes a threshold of 30, since it
rounds to 30.0). -/
def requiredMatchPercentage (resume_skills : List String) (job : JobPosting) : ℚ :=
  (calculate_exact_match_percentage resume_skills job.required_skills).match_percentage

/-- The effective minimum threshold of a posting (`job.get("minimum_match_threshold", 30)`). -/
def minimumThreshold (job : JobPosting) : ℚ := job.minimum_match_threshold.getD 30

/-- The `JobMatch` built for one (eligible) posting. -/
def buildMatch (resume_skills : List String) (job : JobPosting) : JobMatch :=
  let all_job_skills := job.required_skills ++ job.preferred_skills
  let required_match_analysis := calculate_exact_match_percentage resume_skills job.required_skills
  let all_match_analysis := calculate_exact_match_percentage resume_skills all_job_skills
  let required_matches := required_match_analysis.matched_skills.length
  -- preferred skills are counted by *exact, case-sensitive* membership here
  let preferred_matches := (job.preferred_skills.filter (fun s => resume_skills.contains s)).length
  let required_score : ℚ :=
    if job.required_skills.isEmpty then 0
    else (required_matches : ℚ) / job.required_skills.length * 100
  let preferred_score : ℚ :=
    if job.preferred_skills.isEmpty then 0
    else (preferred_matches : ℚ) / job.preferred_skills.length * 100
  let fit_score := required_score * (7/10) + preferred_score * (3/10)
  let selection_probability :=
    min (fit_score + (all_match_analysis.extra_skills.length : ℚ) * (15/10)) 95
  { company := job.company, role_title := job.role_title,
    fit_score := pyRound1 fit_score,
    skills_overlap := all_match_analysis.matched_skills,
    missing_skills := all_match_analysis.missing_skills,
    selection_probability := pyRound1 selection_probability,
    salary_range := job.salary_range, location := job.location,
    experience_level := job.experience_level,
    skill_match_percentage := pyRound1 all_match_analysis.match_percentage,
    exact_matches := all_match_analysis.matched_count,
    total_required := all_job_skills.length,
    -- stands in for the f-string
    -- "Meets {required_match_percentage:.1f}% of required skills (minimum: {minimum_threshold}%)";
    -- a presentation string no verified property depends on
    eligibility_reason := "Meets " ++ toString (pyRound1 required_match_analysis.match_percentage)
      ++ "% of required skills (minimum: " ++ toString (minimumThreshold job) ++ "%)" }

/-- The eligible matches, in catalog order (the loop body of
`match_jobs_realtime` before the final sort). -/
def eligibleMatches (resume_skills : List String) (catalog : List JobPosting) :
    List JobMatch :=
  (catalog.filter (fun job => minimumThreshold job ≤ requiredMatchPercentage resume_skills job)).map
    (buildMatch resume_skills)

/-- The descending-by-fit-score comparison of the final sort. -/
def fitGE (a b : JobMatch) : Prop := b.fit_score ≤ a.fit_score

instance : DecidableRel fitGE := fun _ _ => Rat.instDecidableLe _ _

/-- `match_jobs_realtime(resume_skills)` over an explicit catalog: hard
eligibility filter, then a stable descending sort by fit score
(`matches.sort(key=lambda x: x.fit_score, reverse=True)`; Python's `sort` is
a stable sort, embedded as stable insertion sort). -/
def match_jobs_realtime (resume_skills : List String) (catalog : List JobPosting) :
    List JobMatch :=
  (eligibleMatches resume_skills catalog).insertionSort fitGE

end FixedEnhanced

/-! ## `main.py` — `get_company_job_matches` -/

namespace MainPy

/-- One entry of the `COMPANY_JOBS` catalog (`company_jobs_data.py`).  The
dict may carry a `minimum_match_threshold` key, but — unlike
`fixed_enhanced_backend.match_jobs_realtime` — `get_company_job_matches`
never reads it. -/
structure CompanyJob where
  company : String
  role_title : String
  location : String
  salary_range : String
  experience_level : String
  job_type : String
  required_skills : List String
  preferred_skills : List String
  company_size : String
  industry : String
  remote_friendly : Bool
  description : String
  minimum_match_threshold : Option ℚ
  deriving Repr, DecidableEq

/-- The match dict built per posting by `get_company_job_matches`. -/
structure CompanyMatch where
  company : String
  role_title : String
  location : String
  salary_range : String
  experience_level : String
  job_type : String
  company_size : String
  industry : String
  remote_friendly : Bool
  description : String
  fit_score : ℤ
  selection_probability : ℤ
  skills_overlap : List String
  missing_skills : List String
  required_skills_match : String
  preferred_skills_match : String
  deriving Repr, DecidableEq

/-- `any(req_skill.lower() in skill_lower for skill_lower in skills_lower)`:
substring-tolerant matching of one job skill against the candidate's
(lowercased, stripped) skill strings. -/
def skillHit (skills_lower : List String) (job_skill : String) : Bool :=
  skills_lower.any (fun sl => containsSub (pyLower job_skill).data sl.data)

/-- Number of required-skill hits for a posting. -/
def requiredMatches (skills : List String) (job : CompanyJob) : ℕ :=
  let skills_lower := skills.map (fun s => pyStrip (pyLower s))
  (job.required_skills.filter (skillHit skills_lower)).length

/-- The required-skill match percentage of a posting (not compared against
any threshold by the code). -/
def requiredMatchPct (skills : List String) (job : CompanyJob) : ℚ :=
  if job.required_skills.isEmpty then 0
  else (requiredMatches skills job : ℚ) / job.required_skills.length * 100

/-- The match built by `get_company_job_matches` for one posting with at
least one required-skill hit. -/
def buildCompanyMatch (skills : List String) (job : CompanyJob) : CompanyMatch :=
  let skills_lower := skills.map (fun s => pyStrip (pyLower s))
  let required_matches := (job.required_skills.filter (skillHit skills_lower)).length
  let preferred_matches := (job.preferred_skills.filter (skillHit skills_lower)).length
  let total_required := job.required_skills.length
  let total_preferred := job.preferred_skills.length
  let required_percentage : ℚ := (required_matches : ℚ) / total_required * 100
  let preferred_percentage : ℚ :=
    if 0 < total_preferred then (preferred_matches : ℚ) / total_preferred * 100 else 0
  let base_fit_score := required_percentage * (8/10) + preferred_percentage * (2/10)
  let fit_score := min 98 (pyInt base_fit_score)
  let selection_probability :=
    min 95 (pyInt ((fit_score : ℚ) * (85/100) + required_matches * 2))
  { company := job.company, role_title := job.role_title, location := job.location,
    salary_range := job.salary_range, experience_level := job.experience_level,
    job_type := job.job_type, company_size := job.company_size,
    industry := job.industry, remote_friendly := job.remote_friendly,
    description := job.description,
    fit_score := fit_score, selection_probability := selection_probability,
    skills_overlap := (job.required_skills ++ job.preferred_skills).filter (skillHit skills_lower),
    missing_skills := job.required_skills.filter (fun s => !skillHit skills_lower s),
    required_skills_match := toString required_matches ++ "/" ++ toString total_required,
    preferred_skills_match := toString preferred_matches ++ "/" ++ toString total_preferred }

/-- `get_company_job_matches(skills)` over an explicit catalog: every posting
with at least one required-skill hit is included (there is no minimum-
threshold check), and the result is sorted descending by
`selection_probability` (not by fit score). -/
def selGE (a b : CompanyMatch) : Prop := b.selection_probability ≤ a.selection_probability

instance : DecidableRel selGE := fun _ _ => Int.decLe _ _

def get_company_job_matches (skills : List String) (catalog : List CompanyJob) :
    List CompanyMatch :=
  ((catalog.filter (fun job => 0 < requiredMatches skills job)).map
      (buildCompanyMatch skills)).insertionSort selGE

end MainPy

/-! ## Concrete inputs used by witnesses and counterexamples -/

/-- A posting whose single required skill the sample candidate has. -/
def samplePosting : FixedEnhanced.JobPosting :=
  { company := "TechCorp", role_title := "Backend Engineer",
    required_skills := ["Python"], preferred_skills := [],
    salary_range := "", location := "", experience_level := "", job_type := "",
    minimum_match_threshold := none }

/-- The fallback Google posting of `main.get_company_job_matches`, here with a
configured minimum threshold of 50% (which `get_company_job_matches` ignores). -/
def strictGoogleJob : MainPy.CompanyJob :=
  { company := "Google", role_title := "Software Engineer",
    location := "Bangalore, India", salary_range := "", experience_level := "Mid-level",
    job_type := "Full-time",
    required_skills := ["python", "java", "javascript", "algorithms", "data structures"],
    preferred_skills := ["machine learning", "cloud computing", "kubernetes"],
    company_size := "", industry := "Technology", remote_friendly := true,
    description := "", minimum_match_threshold := some 50 }

/-- A candidate skill list matching all of `orderJobA`'s and most of
`orderJobB`'s required skills. -/
def orderSkills : List String :=
  ["s1", "s2", "s3", "s4", "s5", "s6", "s7", "s8", "s9", "s10",
   "s11", "s12", "s13", "s14", "s15", "s16", "s17", "s18", "s19"]

/-- One an-entire-match posting: fit 80, few required matches. -/
def orderJobA : MainPy.CompanyJob :=
  { company := "A", role_title := "RoleA", location := "", salary_range := "",
    experience_level := "", job_type := "", required_skills := ["s1"],
    preferred_skills := [], company_size := "", industry := "",
    remote_friendly := false, description := "", minimum_match_threshold := none }

/-- A posting with many required skills, 19 of 20 matched: lower fit score but
higher selection probability than `orderJobA`. -/
def orderJobB : MainPy.CompanyJob :=
  { company := "B", role_title := "RoleB", location := "", salary_range := "",
    experience_level := "", job_type := "",
    required_skills := ["s1", "s2", "s3", "s4", "s5", "s6", "s7", "s8", "s9", "s10",
                        "s11", "s12", "s13", "s14", "s15", "s16", "s17", "s18", "s19", "zz"],
    preferred_skills := [], company_size := "", industry := "",
    remote_friendly := false, description := "", minimum_match_threshold := none }

/-! ## Helper lemmas -/

namespace WorkingBackend

theorem skillRatio_nonneg (job : String) (skills : List String) :
    0 ≤ skillRatio job skills := by
  by_cases h : (extract_skills job).isEmpty
  · simp only [skillRatio, h, if_true]
    norm_num
  · simp only [skillRatio, h, Bool.false_eq_true, if_false]
    positivity

theorem skillRatio_le_one (job : String) (skills : List String) :
    skillRatio job skills ≤ 1 := by
  by_cases h : (extract_skills job).isEmpty
  · simp only [skillRatio, h, if_true]
    norm_num
  · simp only [skillRatio, h, Bool.false_eq_true, if_false]
    rw [div_le_one (by exact_mod_cast Nat.lt_of_lt_of_le Nat.one_pos (Nat.le_max_right _ 1))]
    have hcount : List.countP (fun s => (skills.map pyLower).contains s)
        ((extract_skills job).map pyLower) ≤ max (extract_skills job).length 1 :=
      le_trans (le_trans (List.countP_le_length _)
        (le_of_eq (by simp))) (Nat.le_max_left _ _)
    exact_mod_cast hcount

end WorkingBackend

/-! ## The claims -/

/-- C2: for every similarity value and gap-analysis input (job text, resume
skill list) and every drawn random jitter, `calculate_fit_score` yields a
skill-match percentage in [0, 100], an integer fit score in [25, 95] and an
integer selection probability in [15, 95] (the code in fact clamps the
latter to [15, 88] ⊆ [15, 95]). -/
theorem fit_score_output_bounds (similarity : ℚ) (resume job : String)
    (skills : List String) (rand : ℤ) :
    (0 ≤ 100 * WorkingBackend.skillRatio job skills ∧
      100 * WorkingBackend.skillRatio job skills ≤ 100) ∧
    (25 ≤ (WorkingBackend.calculate_fit_score similarity resume job skills rand).fit_score ∧
      (WorkingBackend.calculate_fit_score similarity resume job skills rand).fit_score ≤ 95) ∧
    (15 ≤ (WorkingBackend.calculate_fit_score similarity resume job skills rand).shortlist ∧
      (WorkingBackend.calculate_fit_score similarity resume job skills rand).shortlist ≤ 95) :=
  by
  refine ⟨⟨?_, ?_⟩, ⟨?_, ?_⟩, ⟨?_, ?_⟩⟩
  · have := WorkingBackend.skillRatio_nonneg job skills; linarith
  · have := WorkingBackend.skillRatio_le_one job skills; linarith
  · simp [WorkingBackend.calculate_fit_score]
  · simp only [WorkingBackend.calculate_fit_score]
    exact le_trans (max_le (by norm_num) (min_le_left _ _)) (le_refl _)
  · simp [WorkingBackend.calculate_fit_score]
  · simp only [WorkingBackend.calculate_fit_score]
    exact le_trans (max_le (by norm_num) (min_le_left _ _)) (by norm_num)

/-- C9: the fit score is a deterministic function of the similarity value and
the skill-match ratio — it does not depend on the random jitter, and two
inputs with equal skill-match ratios get equal fit scores. -/
theorem fit_score_deterministic (similarity : ℚ) (resume job resume' job' : String)
    (skills skills' : List String) (rand rand' : ℤ)
    (h : WorkingBackend.skillRatio job skills = WorkingBackend.skillRatio job' skills') :
    (WorkingBackend.calculate_fit_score similarity resume job skills rand).fit_score =
      (WorkingBackend.calculate_fit_score similarity resume' job' skills' rand').fit_score := by
  simp only [WorkingBackend.calculate_fit_score, h]

/-- Witness for C9, at a concrete repeated input. -/
theorem fit_score_deterministic_witness :
    (WorkingBackend.calculate_fit_score (1/2) "r" "need python" ["python"] (-8)).fit_score =
      (WorkingBackend.calculate_fit_score (1/2) "r" "need python" ["python"] 12).fit_score :=
  fit_score_deterministic (1/2) "r" "need python" "r" "need python"
    ["python"] ["python"] (-8) 12 rfl

/-- C10: the missing-skills list returned by `calculate_fit_score` is
truncated to at most 6 entries. -/
theorem missing_skills_truncated (similarity : ℚ) (resume job : String)
    (skills : List String) (rand : ℤ) :
    (WorkingBackend.calculate_fit_score similarity resume job skills rand).missing.length ≤ 6 := by
  simp only [WorkingBackend.calculate_fit_score]
  exact List.length_take_le _ _

/-- C4 (amended): the Jaccard similarity `calculate_semantic_similarity` of
`backend_main.py` is symmetric. -/
theorem jaccard_similarity_symm (a b : String) :
    BackendMain.calculate_semantic_similarity a b =
      BackendMain.calculate_semantic_similarity b a := by
  simp only [BackendMain.calculate_semantic_similarity]
  rw [Finset.union_comm (BackendMain.wordTokens a) (BackendMain.wordTokens b),
    Finset.inter_comm (BackendMain.wordTokens a) (BackendMain.wordTokens b)]

unseal Rat.mul Rat.inv Rat.add Rat.sub Rat.ofScientific in
/-- Counterexample to C4 as stated: the lexical-overlap fallback path inside
`working_backend.calculate_fit_score` divides by the job text's token count
only, and is not symmetric. -/
theorem fallback_similarity_asymmetric :
    WorkingBackend.fallbackSimilarity "a" "a b" ≠
      WorkingBackend.fallbackSimilarity "a b" "a" := by decide

/-- An association-list lookup hit comes from an entry of the list. -/
theorem lookupMem {α β : Type} [BEq α] [LawfulBEq α] :
    ∀ {l : List (α × β)} {a : α} {b : β}, l.lookup a = some b → (a, b) ∈ l := by
  intro l
  induction l with
  | nil => intro a b h; simp [List.lookup] at h
  | cons p l ih =>
      intro a b h
      rw [List.lookup] at h
      by_cases hab : a == p.1
      · simp only [hab, if_true] at h
        cases h
        have := eq_of_beq hab
        subst this
        exact List.mem_cons_self _ _
      · simp only [hab, if_false] at h
        exact List.mem_cons_of_mem _ (ih h)

/-- The character list of a generic "Learn X" course title starts with the
six characters of "Learn ". -/
theorem genericNameTake (t : String) : ("Learn " ++ t).data.take 6 = "Learn ".data := by
  rw [String.data_append]
  have h6 : ("Learn ").data.length = 6 := rfl
  rw [← h6, List.take_left]

/-- Two skills with different lowercasings get different recommendations from
`backend_final.get_course_recommendations`. -/
theorem recommendationFor_inj (s t : String) (h : pyLower s ≠ pyLower t) :
    BackendFinal.recommendationFor s ≠ BackendFinal.recommendationFor t := by
  intro heq
  unfold BackendFinal.recommendationFor at heq
  cases hs : BackendFinal.course_database.lookup (pyLower s) with
  | none =>
    cases ht : BackendFinal.course_database.lookup (pyLower t) with
    | none =>
        rw [hs, ht] at heq
        have hname := congrArg (fun c => c.name.data) heq
        simp only [String.data_append] at hname
        have : s.data = t.data := List.append_cancel_left hname
        exact h (congrArg pyLower (String.ext this))
    | some c =>
        rw [hs, ht] at heq
        have hmem := lookupMem ht
        have hname := congrArg (fun c => c.name.data.take 6) heq.symm
        simp only at hname
        rw [genericNameTake] at hname
        have hno : ∀ p ∈ BackendFinal.course_database, p.2.name.data.take 6 ≠ "Learn ".data := by
          decide
        exact hno _ hmem hname
  | some c =>
    cases ht : BackendFinal.course_database.lookup (pyLower t) with
    | none =>
        rw [hs, ht] at heq
        have hmem := lookupMem hs
        have hname := congrArg (fun c => c.name.data.take 6) heq
        simp only at hname
        rw [genericNameTake] at hname
        have hno : ∀ p ∈ BackendFinal.course_database, p.2.name.data.take 6 ≠ "Learn ".data := by
          decide
        exact hno _ hmem hname
    | some c' =>
        rw [hs, ht] at heq
        have hmem := lookupMem hs
        have hmem' := lookupMem ht
        have hval : ∀ p ∈ BackendFinal.course_database, ∀ q ∈ BackendFinal.course_database,
            p.2 = q.2 → p.1 = q.1 := by decide
        have hcc : c = c' := by simpa using heq
        exact h (hval _ hmem _ hmem' hcc)

/-- Two skills with different lowercasings get different courses from
`working_backend.get_courses`. -/
theorem courseFor_inj (s t : String) (h : pyLower s ≠ pyLower t) :
    WorkingBackend.courseFor s ≠ WorkingBackend.courseFor t := by
  intro heq
  unfold WorkingBackend.courseFor at heq
  cases hs : WorkingBackend.coursesTable.lookup (pyLower s) with
  | none =>
    cases ht : WorkingBackend.coursesTable.lookup (pyLower t) with
    | none =>
        rw [hs, ht] at heq
        have hname := congrArg (fun c => c.name.data) heq
        simp only [String.data_append] at hname
        have : s.data = t.data := List.append_cancel_left hname
        exact h (congrArg pyLower (String.ext this))
    | some c =>
        rw [hs, ht] at heq
        have hmem := lookupMem ht
        have hname := congrArg (fun c => c.name.data.take 6) heq.symm
        simp only at hname
        rw [genericNameTake] at hname
        have hno : ∀ p ∈ WorkingBackend.coursesTable, p.2.name.data.take 6 ≠ "Learn ".data := by
          decide
        exact hno _ hmem hname
  | some c =>
    cases ht : WorkingBackend.coursesTable.lookup (pyLower t) with
    | none =>
        rw [hs, ht] at heq
        have hmem := lookupMem hs
        have hname := congrArg (fun c => c.name.data.take 6) heq
        simp only at hname
        rw [genericNameTake] at hname
        have hno : ∀ p ∈ WorkingBackend.coursesTable, p.2.name.data.take 6 ≠ "Learn ".data := by
          decide
        exact hno _ hmem hname
    | some c' =>
        rw [hs, ht] at heq
        have hmem := lookupMem hs
        have hmem' := lookupMem ht
        have hval : ∀ p ∈ WorkingBackend.coursesTable, ∀ q ∈ WorkingBackend.coursesTable,
            p.2 = q.2 → p.1 = q.1 := by decide
        have hcc : c = c' := by simpa using heq
        exact h (hval _ hmem _ hmem' hcc)

/-- C8 (amended): both recommenders return at most their hard-coded number of
items (5 for `backend_final.get_course_recommendations`, 4 for
`working_backend.get_courses`; the limit is a constant, not a parameter), and
when the input skills considered (the first 5 resp. 4) are pairwise distinct
after lowercasing, no two returned recommendations coincide. -/
theorem course_recommendation_limits (missing : List String) :
    ((BackendFinal.get_course_recommendations missing).length ≤ 5 ∧
      (((missing.take 5).map pyLower).Nodup →
        (BackendFinal.get_course_recommendations missing).Nodup)) ∧
    ((WorkingBackend.get_courses missing).length ≤ 4 ∧
      (((missing.take 4).map pyLower).Nodup →
        (WorkingBackend.get_courses missing).Nodup)) := by
  refine ⟨⟨?_, ?_⟩, ⟨?_, ?_⟩⟩
  · simp only [BackendFinal.get_course_recommendations, List.length_map]
    exact List.length_take_le _ _
  · intro h
    refine List.Nodup.map_on ?_ h.of_map
    intro x hx y hy hxy
    have hll : pyLower x = pyLower y := by
      by_contra hne
      exact recommendationFor_inj x y hne hxy
    exact List.inj_on_of_nodup_map h hx hy hll
  · simp only [WorkingBackend.get_courses, List.length_map]
    exact List.length_take_le _ _
  · intro h
    refine List.Nodup.map_on ?_ h.of_map
    intro x hx y hy hxy
    have hll : pyLower x = pyLower y := by
      by_contra hne
      exact courseFor_inj x y hne hxy
    exact List.inj_on_of_nodup_map h hx hy hll

/-- Witness for C8 at a concrete missing-skill list. -/
theorem course_recommendation_limits_witness :
    (BackendFinal.get_course_recommendations ["Python", "Docker"]).length ≤ 5 ∧
    (BackendFinal.get_course_recommendations ["Python", "Docker"]).Nodup ∧
    (WorkingBackend.get_courses ["Python", "Docker"]).length ≤ 4 ∧
    (WorkingBackend.get_courses ["Python", "Docker"]).Nodup :=
  ⟨(course_recommendation_limits _).1.1,
   (course_recommendation_limits ["Python", "Docker"]).1.2 (by decide),
   (course_recommendation_limits _).2.1,
   (course_recommendation_limits ["Python", "Docker"]).2.2 (by decide)⟩

/-- Counterexample to C8 as stated: a missing-skill list that repeats a skill
makes `get_course_recommendations` return the same recommendation twice. -/
theorem duplicate_course_recommendations :
    ¬ (BackendFinal.get_course_recommendations ["Python", "Python"]).Nodup := by decide

/-- C3 (amended, `fixed_enhanced_backend` part): every match returned by
`match_jobs_realtime` comes from a catalog posting whose required-skill match
percentage — rounded to one decimal, as `calculate_exact_match_percentage`
stores it — reaches that posting's minimum threshold (default 30 when the
posting configures none); the threshold is a hard filter on that rounded
percentage. -/
theorem ranker_hard_threshold_filter (skills : List String)
    (catalog : List FixedEnhanced.JobPosting) (m : FixedEnhanced.JobMatch)
    (hm : m ∈ FixedEnhanced.match_jobs_realtime skills catalog) :
    ∃ job ∈ catalog, m = FixedEnhanced.buildMatch skills job ∧
      FixedEnhanced.minimumThreshold job ≤
        FixedEnhanced.requiredMatchPercentage skills job := by
  rw [FixedEnhanced.match_jobs_realtime, List.mem_insertionSort,
    FixedEnhanced.eligibleMatches] at hm
  obtain ⟨job, hjob, rfl⟩ := List.mem_map.mp hm
  obtain ⟨hcat, hcond⟩ := List.mem_filter.mp hjob
  exact ⟨job, hcat, rfl, of_decide_eq_true hcond⟩

unseal Rat.mul Rat.inv Rat.add Rat.sub Rat.ofScientific in
/-- Witness for C3 at a concrete candidate and catalog. -/
theorem ranker_hard_threshold_filter_witness :
    ∃ job ∈ [samplePosting],
      FixedEnhanced.buildMatch ["Python"] samplePosting =
        FixedEnhanced.buildMatch ["Python"] job ∧
      FixedEnhanced.minimumThreshold job ≤
        FixedEnhanced.requiredMatchPercentage ["Python"] job :=
  ranker_hard_threshold_filter ["Python"] [samplePosting]
    (FixedEnhanced.buildMatch ["Python"] samplePosting) (by decide)

unseal Rat.mul Rat.inv Rat.add Rat.sub Rat.ofScientific in
/-- Counterexample to C3 as stated: `main.get_company_job_matches` returns a
match for a posting whose required-skill match percentage (20%) is below the
posting's configured minimum threshold (50%) — it never consults any
threshold, it only requires at least one required-skill hit. -/
theorem ranker_threshold_counterexample :
    ((MainPy.get_company_job_matches ["python"] [strictGoogleJob]).map
        (fun m => m.company)) = ["Google"] ∧
    strictGoogleJob.minimum_match_threshold = some 50 ∧
    MainPy.requiredMatchPct ["python"] strictGoogleJob = 20 ∧ ((20 : ℚ) < 50) :=
  ⟨by decide, rfl, by decide, by norm_num⟩

/-- C7 (amended, `fixed_enhanced_backend` part): `match_jobs_realtime` output
is sorted descending by fit score, and the entries of any fit-score tie class
appear exactly in catalog (pre-sort) order. -/
theorem realtime_matches_sorted_stable (skills : List String)
    (catalog : List FixedEnhanced.JobPosting) :
    (FixedEnhanced.match_jobs_realtime skills catalog).Pairwise
      (fun a b => b.fit_score ≤ a.fit_score) ∧
    ∀ v : ℚ,
      (FixedEnhanced.match_jobs_realtime skills catalog).filter
          (fun m => m.fit_score == v) =
        (FixedEnhanced.eligibleMatches skills catalog).filter
          (fun m => m.fit_score == v) := by
  haveI : IsTotal FixedEnhanced.JobMatch FixedEnhanced.fitGE :=
    ⟨fun a b => le_total b.fit_score a.fit_score⟩
  haveI : IsTrans FixedEnhanced.JobMatch FixedEnhanced.fitGE :=
    ⟨fun _ _ _ h1 h2 => le_trans h2 h1⟩
  constructor
  · exact List.sorted_insertionSort FixedEnhanced.fitGE
      (FixedEnhanced.eligibleMatches skills catalog)
  · intro v
    have hpairwise : ((FixedEnhanced.eligibleMatches skills catalog).filter
        (fun m => m.fit_score == v)).Pairwise FixedEnhanced.fitGE := by
      apply List.pairwise_of_forall_mem_list
      intro a ha b hb
      have hav : a.fit_score = v := by
        simpa using (List.mem_filter.mp ha).2
      have hbv : b.fit_score = v := by
        simpa using (List.mem_filter.mp hb).2
      show b.fit_score ≤ a.fit_score
      rw [hav, hbv]
    have hsub : List.Sublist ((FixedEnhanced.eligibleMatches skills catalog).filter
        (fun m => m.fit_score == v))
        (FixedEnhanced.match_jobs_realtime skills catalog) :=
      List.sublist_insertionSort hpairwise (List.filter_sublist _)
    have hsub2 : List.Sublist ((FixedEnhanced.eligibleMatches skills catalog).filter
        (fun m => m.fit_score == v))
        ((FixedEnhanced.match_jobs_realtime skills catalog).filter
          (fun m => m.fit_score == v)) := by
      have h0 := hsub.filter (fun m => m.fit_score == v)
      rwa [List.filter_eq_self.mpr
        (fun a ha => (List.mem_filter.mp ha).2)] at h0
    have hperm : List.Perm ((FixedEnhanced.match_jobs_realtime skills catalog).filter
        (fun m => m.fit_score == v))
        ((FixedEnhanced.eligibleMatches skills catalog).filter
          (fun m => m.fit_score == v)) :=
      (List.perm_insertionSort _ _).filter _
    exact (hsub2.eq_of_length hperm.length_eq.symm).symm

unseal Rat.mul Rat.inv Rat.add Rat.sub Rat.ofScientific in
/-- Counterexample to C7 as stated: `main.get_company_job_matches` sorts by
selection probability, so a lower-fit posting can precede a higher-fit one. -/
theorem company_matches_not_fit_sorted :
    ((MainPy.get_company_job_matches orderSkills [orderJobA, orderJobB]).map
        (fun m => m.fit_score)) = [76, 80] ∧
    ¬ ((MainPy.get_company_job_matches orderSkills [orderJobA, orderJobB]).Pairwise
        (fun a b => b.fit_score ≤ a.fit_score)) :=
  ⟨by decide, by decide⟩

/-- A left fold preserves any predicate its step preserves. -/
theorem foldl_pred_preserved {α : Type} (P : ℚ → Prop) (f : ℚ → α → ℚ)
    (h : ∀ c x, P c → P (f c x)) :
    ∀ (l : List α) (c0 : ℚ), P c0 → P (l.foldl f c0) := by
  intro l
  induction l with
  | nil => intro c0 h0; simpa using h0
  | cons x l ih =>
      intro c0 h0
      simp only [List.foldl_cons]
      exact ih _ (h c0 x h0)

/-- The flattened extracted skill names are exactly the skills of the job
requirement triples, in order. -/
theorem jobPairs_names (job : String) :
    (SkillAnalyzer.jobPairs job).map (fun p => p.2.1) = SkillAnalyzer.flatSkillNames job := by
  simp only [SkillAnalyzer.jobPairs, SkillAnalyzer.extractJobRequirements,
    SkillAnalyzer.flatSkillNames, List.flatMap_map, List.map_flatMap, List.map_map]
  rfl

/-- A skill name occurs among the matched skills of the gap analysis iff it
occurs among the job requirement triples and is present in the resume. -/
theorem mem_matched_names (resume job : String) (hint : Option (List String)) (s : String) :
    (s ∈ (SkillAnalyzer.analyzeSkillGaps resume job hint).matched_skills.map
        (fun m => m.skill)) ↔
      ((∃ p ∈ SkillAnalyzer.jobPairs job, p.2.1 = s) ∧
        SkillAnalyzer.isPresentIn (SkillAnalyzer.resumeSkillsFlat resume hint) s = true) := by
  simp only [SkillAnalyzer.analyzeSkillGaps, List.map_map, List.mem_map, Function.comp,
    List.mem_filter, SkillAnalyzer.mkSkillMatch]
  constructor
  · rintro ⟨p, ⟨hp, hq⟩, rfl⟩
    exact ⟨⟨p, hp, rfl⟩, hq⟩
  · rintro ⟨⟨p, hp, rfl⟩, hq⟩
    exact ⟨p, ⟨hp, hq⟩, rfl⟩

/-- A skill name occurs among the missing skills of the gap analysis iff it
occurs among the job requirement triples and is absent from the resume. -/
theorem mem_missing_names (resume job : String) (hint : Option (List String)) (s : String) :
    (s ∈ (SkillAnalyzer.analyzeSkillGaps resume job hint).missing_skills.map
        (fun m => m.skill)) ↔
      ((∃ p ∈ SkillAnalyzer.jobPairs job, p.2.1 = s) ∧
        SkillAnalyzer.isPresentIn (SkillAnalyzer.resumeSkillsFlat resume hint) s = false) := by
  simp only [SkillAnalyzer.analyzeSkillGaps, List.map_map, List.mem_map, Function.comp,
    List.mem_filter, SkillAnalyzer.mkSkillMatch, Bool.not_eq_true']
  constructor
  · rintro ⟨p, ⟨hp, hq⟩, rfl⟩
    exact ⟨⟨p, hp, rfl⟩, hq⟩
  · rintro ⟨⟨p, hp, rfl⟩, hq⟩
    exact ⟨p, ⟨hp, hq⟩, rfl⟩

/-- C1: every skill in the flattened extracted skill set of the job text
appears in exactly one of the gap analysis result's matched or missing
lists — never in both, never in neither.  (The routing decision
`is_present` is a function of the skill name alone, so the two lists
partition the extracted job skills.) -/
theorem skill_gap_matched_missing_partition (resume job : String)
    (hint : Option (List String)) (s : String)
    (hs : s ∈ SkillAnalyzer.flatSkillNames job) :
    ((s ∈ (SkillAnalyzer.analyzeSkillGaps resume job hint).matched_skills.map
        (fun m => m.skill)) ∨
      (s ∈ (SkillAnalyzer.analyzeSkillGaps resume job hint).missing_skills.map
        (fun m => m.skill))) ∧
    ¬ ((s ∈ (SkillAnalyzer.analyzeSkillGaps resume job hint).matched_skills.map
        (fun m => m.skill)) ∧
      (s ∈ (SkillAnalyzer.analyzeSkillGaps resume job hint).missing_skills.map
        (fun m => m.skill))) := by
  rw [← jobPairs_names] at hs
  obtain ⟨p, hp, hps⟩ := List.mem_map.mp hs
  have hpair : ∃ p ∈ SkillAnalyzer.jobPairs job, p.2.1 = s := ⟨p, hp, hps⟩
  constructor
  · cases hpres : SkillAnalyzer.isPresentIn (SkillAnalyzer.resumeSkillsFlat resume hint) s with
    | true => exact Or.inl ((mem_matched_names resume job hint s).mpr ⟨hpair, hpres⟩)
    | false => exact Or.inr ((mem_missing_names resume job hint s).mpr ⟨hpair, hpres⟩)
  · rintro ⟨hmat, hmis⟩
    have h1 := ((mem_matched_names resume job hint s).mp hmat).2
    have h2 := ((mem_missing_names resume job hint s).mp hmis).2
    rw [h1] at h2
    simp at h2

set_option maxRecDepth 4000 in
unseal Rat.mul Rat.inv Rat.add Rat.sub Rat.ofScientific in
/-- Witness for C1: the job text "python" yields the skill "Python", which
lands in exactly one of matched/missing against an empty resume. -/
theorem skill_gap_matched_missing_partition_witness :
    ("Python" ∈ SkillAnalyzer.flatSkillNames "python") ∧
    ((("Python" ∈ (SkillAnalyzer.analyzeSkillGaps "" "python" none).matched_skills.map
          (fun m => m.skill)) ∨
       ("Python" ∈ (SkillAnalyzer.analyzeSkillGaps "" "python" none).missing_skills.map
          (fun m => m.skill))) ∧
     ¬ (("Python" ∈ (SkillAnalyzer.analyzeSkillGaps "" "python" none).matched_skills.map
          (fun m => m.skill)) ∧
        ("Python" ∈ (SkillAnalyzer.analyzeSkillGaps "" "python" none).missing_skills.map
          (fun m => m.skill)))) :=
  ⟨by decide, skill_gap_matched_missing_partition "" "python" none "Python" (by decide)⟩

/-- The base importance from the catalog table is nonnegative. -/
theorem baseImportance_nonneg (s : String) :
    (0 : ℚ) ≤ (SkillAnalyzer.skillImportance.lookup s).getD (1/2) := by
  cases h : SkillAnalyzer.skillImportance.lookup s with
  | none => norm_num
  | some v =>
      have hmem := lookupMem h
      have hval : ∀ p ∈ SkillAnalyzer.skillImportance, (0:ℚ) ≤ p.2 := by
        intro p hp
        fin_cases hp <;> norm_num
      simpa using hval _ hmem

set_option maxHeartbeats 1000000 in
/-- Context-adjusted importances are nonnegative. -/
theorem calcSkillImportance_nonneg (s : String) (jl : List Char) :
    0 ≤ SkillAnalyzer.calcSkillImportance s jl := by
  simp only [SkillAnalyzer.calcSkillImportance]
  refine le_min (by norm_num) ?_
  have hmul : ∀ (x : List (List RAtom) × ℚ), x ∈ SkillAnalyzer.importanceIndicators
      (lowerChars s.data) → (0:ℚ) ≤ x.2 := by
    intro x hx
    simp only [SkillAnalyzer.importanceIndicators, List.mem_cons,
      List.not_mem_nil, or_false] at hx
    rcases hx with rfl | rfl | rfl | rfl <;> norm_num
  have hfold : ∀ (l : List (List (List RAtom) × ℚ)), (∀ x ∈ l, (0:ℚ) ≤ x.2) →
      ∀ acc : ℚ, 0 ≤ acc →
      0 ≤ l.foldl (fun a ind =>
        if ind.1.any (fun p => reSearchText p jl) then a * ind.2 else a) acc := by
    intro l
    induction l with
    | nil => intro _ acc h; simpa using h
    | cons x l ih =>
        intro hx acc hacc
        simp only [List.foldl_cons]
        refine ih (fun y hy => hx y (List.mem_cons_of_mem _ hy)) _ ?_
        split_ifs
        · exact mul_nonneg hacc (hx x (List.mem_cons_self _ _))
        · exact hacc
  exact hfold _ hmul _ (baseImportance_nonneg s)

/-- Every job requirement triple carries a nonnegative importance. -/
theorem jobPairs_importance_nonneg (job : String) :
    ∀ p ∈ SkillAnalyzer.jobPairs job, (0:ℚ) ≤ p.2.2 := by
  intro p hp
  rw [SkillAnalyzer.jobPairs, List.mem_flatMap] at hp
  obtain ⟨cat, hcat, hpm⟩ := hp
  rw [SkillAnalyzer.extractJobRequirements, List.mem_map] at hcat
  obtain ⟨cat0, _, rfl⟩ := hcat
  dsimp only at hpm
  rw [List.mem_map] at hpm
  obtain ⟨sk, hsk, rfl⟩ := hpm
  rw [List.mem_map] at hsk
  obtain ⟨sk0, _, rfl⟩ := hsk
  exact calcSkillImportance_nonneg _ _

/-- The matched list of the gap analysis, unfolded. -/
theorem analyzeSkillGaps_matched (resume job : String) (hint : Option (List String)) :
    (SkillAnalyzer.analyzeSkillGaps resume job hint).matched_skills =
      ((SkillAnalyzer.jobPairs job).filter (fun p =>
          SkillAnalyzer.isPresentIn (SkillAnalyzer.resumeSkillsFlat resume hint) p.2.1)).map
        (SkillAnalyzer.mkSkillMatch (SkillAnalyzer.resumeSkillsFlat resume hint)) := rfl

/-- The missing list of the gap analysis, unfolded. -/
theorem analyzeSkillGaps_missing (resume job : String) (hint : Option (List String)) :
    (SkillAnalyzer.analyzeSkillGaps resume job hint).missing_skills =
      ((SkillAnalyzer.jobPairs job).filter (fun p =>
          !SkillAnalyzer.isPresentIn (SkillAnalyzer.resumeSkillsFlat resume hint) p.2.1)).map
        (SkillAnalyzer.mkSkillMatch (SkillAnalyzer.resumeSkillsFlat resume hint)) := rfl

/-- Every skill-match record produced by the gap analysis carries a
nonnegative importance weight. -/
theorem gapImportances_nonneg (resume job : String) (hint : Option (List String)) :
    ∀ m ∈ (SkillAnalyzer.analyzeSkillGaps resume job hint).matched_skills ++
        (SkillAnalyzer.analyzeSkillGaps resume job hint).missing_skills,
      (0:ℚ) ≤ m.importance := by
  intro m hm
  rw [List.mem_append, analyzeSkillGaps_matched, analyzeSkillGaps_missing] at hm
  rcases hm with hm | hm <;>
  · rw [List.mem_map] at hm
    obtain ⟨p, hp, rfl⟩ := hm
    exact jobPairs_importance_nonneg job p (List.mem_of_mem_filter hp)

/-- C6 (amended, `skill_analyzer` part): the overall match score equals the
sum of importance weights of matched skills divided by the total importance
weight of matched plus missing skills (with the division-by-zero convention
of `ℚ` agreeing with the code's explicit 0 default), and is 0 when no skills
are extracted from the job text. -/
theorem gap_ratio_weighted_formula (resume job : String) (hint : Option (List String)) :
    ((SkillAnalyzer.analyzeSkillGaps resume job hint).overall_match_score =
      ((SkillAnalyzer.analyzeSkillGaps resume job hint).matched_skills.map
          (fun m => m.importance)).sum /
        (((SkillAnalyzer.analyzeSkillGaps resume job hint).matched_skills.map
            (fun m => m.importance)).sum +
          ((SkillAnalyzer.analyzeSkillGaps resume job hint).missing_skills.map
            (fun m => m.importance)).sum)) ∧
    (SkillAnalyzer.flatSkillNames job = [] →
      (SkillAnalyzer.analyzeSkillGaps resume job hint).overall_match_score = 0) := by
  have hov : (SkillAnalyzer.analyzeSkillGaps resume job hint).overall_match_score =
      (if 0 < (((SkillAnalyzer.analyzeSkillGaps resume job hint).matched_skills ++
          (SkillAnalyzer.analyzeSkillGaps resume job hint).missing_skills).map
            (fun m => m.importance)).sum
       then ((SkillAnalyzer.analyzeSkillGaps resume job hint).matched_skills.map
              (fun m => m.importance)).sum /
            (((SkillAnalyzer.analyzeSkillGaps resume job hint).matched_skills ++
              (SkillAnalyzer.analyzeSkillGaps resume job hint).missing_skills).map
                (fun m => m.importance)).sum
       else 0) := rfl
  have hsplit : (((SkillAnalyzer.analyzeSkillGaps resume job hint).matched_skills ++
      (SkillAnalyzer.analyzeSkillGaps resume job hint).missing_skills).map
        (fun m => m.importance)).sum =
      ((SkillAnalyzer.analyzeSkillGaps resume job hint).matched_skills.map
          (fun m => m.importance)).sum +
        ((SkillAnalyzer.analyzeSkillGaps resume job hint).missing_skills.map
          (fun m => m.importance)).sum := by
    rw [List.map_append, List.sum_append]
  have hMnonneg : 0 ≤ ((SkillAnalyzer.analyzeSkillGaps resume job hint).matched_skills.map
      (fun m => m.importance)).sum := by
    apply List.sum_nonneg
    intro x hx
    rw [List.mem_map] at hx
    obtain ⟨m, hm, rfl⟩ := hx
    exact gapImportances_nonneg resume job hint m (List.mem_append_left _ hm)
  have hMinonneg : 0 ≤ ((SkillAnalyzer.analyzeSkillGaps resume job hint).missing_skills.map
      (fun m => m.importance)).sum := by
    apply List.sum_nonneg
    intro x hx
    rw [List.mem_map] at hx
    obtain ⟨m, hm, rfl⟩ := hx
    exact gapImportances_nonneg resume job hint m (List.mem_append_right _ hm)
  constructor
  · rw [hov, hsplit]
    by_cases hT : 0 < ((SkillAnalyzer.analyzeSkillGaps resume job hint).matched_skills.map
        (fun m => m.importance)).sum +
        ((SkillAnalyzer.analyzeSkillGaps resume job hint).missing_skills.map
          (fun m => m.importance)).sum
    · rw [if_pos hT]
    · rw [if_neg hT]
      have hM0 : ((SkillAnalyzer.analyzeSkillGaps resume job hint).matched_skills.map
          (fun m => m.importance)).sum = 0 := by
        have := not_lt.mp hT
        linarith
      rw [hM0, zero_div]
  · intro hempty
    have hpairs0 : SkillAnalyzer.jobPairs job = [] := by
      have hmapnil : (SkillAnalyzer.jobPairs job).map (fun p => p.2.1) = [] := by
        rw [jobPairs_names]
        exact hempty
      exact List.map_eq_nil_iff.mp hmapnil
    have h1 : (SkillAnalyzer.analyzeSkillGaps resume job hint).matched_skills = [] := by
      rw [analyzeSkillGaps_matched, hpairs0]
      rfl
    have h2 : (SkillAnalyzer.analyzeSkillGaps resume job hint).missing_skills = [] := by
      rw [analyzeSkillGaps_missing, hpairs0]
      rfl
    rw [hov, h1, h2]
    simp

set_option maxRecDepth 4000 in
unseal Rat.mul Rat.inv Rat.add Rat.sub Rat.ofScientific in
/-- Witness for C6: an empty job text extracts no skills and yields an
overall match score of 0. -/
theorem gap_ratio_weighted_formula_witness :
    SkillAnalyzer.flatSkillNames "" = [] ∧
    (SkillAnalyzer.analyzeSkillGaps "" "" none).overall_match_score = 0 :=
  ⟨by decide, (gap_ratio_weighted_formula "" "" none).2 (by decide)⟩

unseal Rat.mul Rat.inv Rat.add Rat.sub Rat.ofScientific in
/-- Counterexample to C6 as stated: the `backend_final.analyze_skill_match`
variant of the gap analysis returns an (unweighted) ratio of 0.5 — not 0 —
when no skills are extracted from the job text. -/
theorem final_ratio_default_half :
    BackendFinal.extract_skills_from_text "" = [] ∧
    (BackendFinal.analyze_skill_match [] "").skill_match_ratio = 1/2 ∧
    ((1:ℚ)/2 ≠ 0) :=
  ⟨by decide, by decide, by norm_num⟩

/-- A plain substring occurrence drives the detection confidence to at least
0.9: the later steps of `_calculate_skill_confidence` only ever raise it
(`max`) or cap it at 1 (`min 1 (c + 0.1)`), never below 0.9. -/
theorem calcSkillConfidence_ge_of_substring (s : String) (tl : List Char)
    (h : containsSub (lowerChars s.data) tl = true) :
    9/10 ≤ SkillAnalyzer.calcSkillConfidence s tl := by
  simp only [SkillAnalyzer.calcSkillConfidence]
  refine foldl_pred_preserved (fun c => 9/10 ≤ c) _ ?_ _ _ ?_
  · intro c x hc
    dsimp only
    split_ifs
    · exact le_min (by norm_num) (by linarith)
    · exact hc
  · set y := (SkillAnalyzer.synonymsOf s).foldl
        (fun c syn => if containsSub (lowerChars syn.data) tl = true then max c ((8:ℚ)/10) else c)
        (if containsSub (lowerChars s.data) tl = true then (9:ℚ)/10 else (0:ℚ)) with hy
    have hc1 : (9:ℚ)/10 ≤ y := by
      rw [hy]
      have hc0 : (9:ℚ)/10 ≤ (if containsSub (lowerChars s.data) tl = true then (9:ℚ)/10 else 0) := by
        rw [if_pos h]
      refine foldl_pred_preserved (fun c => 9/10 ≤ c) _ ?_ _ _ hc0
      intro c x hc
      dsimp only
      split_ifs
      · exact le_trans hc (le_max_left _ _)
      · exact hc
    split_ifs
    · exact le_trans hc1 (le_max_left _ _)
    · exact hc1
    · exact le_trans hc1 (le_max_left _ _)
    · exact hc1

/-- A skill listed in the catalog whose detection confidence clears the 0.3
threshold appears in the flattened extraction result. -/
theorem mem_flatSkillNames_of_conf (text s : String)
    (hcat : ∃ cat ∈ SkillAnalyzer.skillCategories, ∃ sub ∈ cat.2, s ∈ sub.2)
    (hc : 3/10 < SkillAnalyzer.calcSkillConfidence s (lowerChars text.data)) :
    s ∈ SkillAnalyzer.flatSkillNames text := by
  obtain ⟨cat, hcatmem, sub, hsubmem, hsmem⟩ := hcat
  have hpair : (s, SkillAnalyzer.calcSkillConfidence s (lowerChars text.data)) ∈
      cat.2.flatMap (fun sub => sub.2.filterMap (fun s' =>
        let c := SkillAnalyzer.calcSkillConfidence s' (lowerChars text.data)
        if c > 3/10 then some (s', c) else none)) := by
    rw [List.mem_flatMap]
    refine ⟨sub, hsubmem, ?_⟩
    rw [List.mem_filterMap]
    refine ⟨s, hsmem, ?_⟩
    dsimp only
    rw [if_pos hc]
  have hsorted : (s, SkillAnalyzer.calcSkillConfidence s (lowerChars text.data)) ∈
      SkillAnalyzer.sortByConfDesc (cat.2.flatMap (fun sub => sub.2.filterMap (fun s' =>
        let c := SkillAnalyzer.calcSkillConfidence s' (lowerChars text.data)
        if c > 3/10 then some (s', c) else none))) := by
    unfold SkillAnalyzer.sortByConfDesc
    rw [List.mem_insertionSort]
    exact hpair
  unfold SkillAnalyzer.flatSkillNames
  rw [List.mem_flatMap]
  refine ⟨(cat.1, SkillAnalyzer.sortByConfDesc (cat.2.flatMap (fun sub =>
      sub.2.filterMap (fun s' =>
        let c := SkillAnalyzer.calcSkillConfidence s' (lowerChars text.data)
        if c > 3/10 then some (s', c) else none)))), ?_, ?_⟩
  · unfold SkillAnalyzer.extractSkillsFromText
    rw [List.mem_filter]
    constructor
    · rw [List.mem_map]
      exact ⟨cat, hcatmem, rfl⟩
    · simp only [Bool.not_eq_true']
      rw [List.isEmpty_eq_false]
      exact List.ne_nil_of_mem hsorted
  · rw [List.mem_map]
    exact ⟨_, hsorted, rfl⟩

/-- C5 (amended): skill extraction reports a catalog skill whenever its
lowercased name occurs as a plain substring of the lowercased input — the
word-boundary pattern only adjusts the confidence and never gates inclusion
(first conjunct: `skill_analyzer`; second: `working_backend`). -/
theorem substring_extraction_reports_inner_matches :
    (∀ (text s : String),
       (∃ cat ∈ SkillAnalyzer.skillCategories, ∃ sub ∈ cat.2, s ∈ sub.2) →
       containsSub (lowerChars s.data) (lowerChars text.data) = true →
       s ∈ SkillAnalyzer.flatSkillNames text) ∧
    (∀ (text s : String), s ∈ WorkingBackend.skillsList →
       containsSub s.data (lowerChars text.data) = true →
       pyTitle s ∈ WorkingBackend.extract_skills text) := by
  constructor
  · intro text s hcat hsub
    exact mem_flatSkillNames_of_conf text s hcat
      (lt_of_lt_of_le (by norm_num) (calcSkillConfidence_ge_of_substring s _ hsub))
  · intro text s hmem hsub
    unfold WorkingBackend.extract_skills
    rw [List.mem_dedup, List.mem_map]
    exact ⟨s, List.mem_filter.mpr ⟨hmem, hsub⟩, rfl⟩

set_option maxRecDepth 4000 in
unseal Rat.mul Rat.inv Rat.add Rat.sub Rat.ofScientific in
/-- Witness for C5 at concrete inputs with genuine (boundary-safe)
occurrences. -/
theorem substring_extraction_reports_inner_matches_witness :
    ("Go" ∈ SkillAnalyzer.flatSkillNames "i code in go") ∧
    (pyTitle "java" ∈ WorkingBackend.extract_skills "javascript expert") :=
  ⟨substring_extraction_reports_inner_matches.1 "i code in go" "Go" (by decide) (by decide),
   substring_extraction_reports_inner_matches.2 "javascript expert" "java"
     (by decide) (by decide)⟩

set_option maxRecDepth 4000 in
unseal Rat.mul Rat.inv Rat.add Rat.sub Rat.ofScientific in
/-- Counterexample to C5 as stated: the text "google" does produce the skill
"Go" (by the substring branch), even though the word-boundary pattern for
"go" does not match "google". -/
theorem google_produces_go :
    ("Go" ∈ SkillAnalyzer.flatSkillNames "google") ∧
    reSearchText (SkillAnalyzer.singleWordPat (lowerChars "Go".data))
      (lowerChars "google".data) = false :=
  ⟨by decide, by decide⟩
